import Mathlib

/-!
Shallow embedding of the session-tracking core of src/bot.py: the sessions
table, the login / logout / status lifecycle commands, and the read-side
aggregation queries (leaderboard, per-user report, server report).

The SQLite table is modelled as a list of rows in insertion (rowid) order.
Wall-clock reads (time.time() in the source) become explicit integer
parameters; in particular logout reads the clock twice in the source — once
inside get_session_duration and once for the stored end_ts — so the embedded
logout takes both timestamps as separate parameters.
-/

namespace CoWorkBot

/-- One row of the sessions table created by init_db in src/bot.py.  Column
order: id, user_id, username, start_ts, end_ts, duration_minutes, description,
created_at.  The columns end_ts, duration_minutes and description are NULL
(here: none) while the session is active. -/
structure Session where
  id : Nat
  user_id : String
  username : String
  start_ts : Int
  end_ts : Option Int
  duration_minutes : Option Int
  description : Option String
  created_at : Int
deriving DecidableEq, Repr

/-- The sessions table: rows in insertion (rowid / AUTOINCREMENT id) order. -/
abbrev Store := List Session

/-- AUTOINCREMENT id for the next inserted row: one more than the largest id
present (ids start at 1 and rows are never deleted in this program). -/
def nextId (s : Store) : Nat :=
  (s.map Session.id).foldr max 0 + 1

/-- Python round(n / 60) for an integer number of seconds n: round to nearest
with ties (n = 60*k + 30) going to the even integer, which is what Python's
round-half-even gives on these exactly representable quotients. -/
def roundDiv60 (n : Int) : Int :=
  let q := n.ediv 60
  let r := n.emod 60
  if r < 30 then q
  else if r = 30 then (if q.emod 2 = 0 then q else q + 1)
  else q + 1

/-- get_session_duration from src/bot.py: minutes between the row's start_ts
and the wall-clock value read inside the function (passed here as now). -/
def get_session_duration (session : Session) (now : Int) : Int :=
  roundDiv60 (now - session.start_ts)

/-- The WHERE clause of the active-session query: user_id matches and end_ts
IS NULL. -/
def isActiveFor (user_id : String) (r : Session) : Bool :=
  r.user_id == user_id && r.end_ts.isNone

/-- get_current_session from src/bot.py: SELECT * FROM sessions WHERE
user_id = ? AND end_ts IS NULL, then fetchone(), which yields the first
matching row in table order (no ORDER BY, no error on multiple matches). -/
def get_current_session (user_id : String) (s : Store) : Option Session :=
  s.find? (isActiveFor user_id)

/-- Outcome of the login command as sent back to the user. -/
inductive LoginResult where
  | alreadyActive (start_ts : Int)
  | clockedIn
deriving DecidableEq, Repr

/-- The row INSERTed by login: end_ts, duration_minutes and description are
NULL, and created_at defaults to the insert-time clock (the same wall-clock
second as start_ts). -/
def newSessionRow (user_id username : String) (now : Int) (s : Store) :
    Session :=
  { id := nextId s, user_id := user_id, username := username,
    start_ts := now, end_ts := none, duration_minutes := none,
    description := none, created_at := now }

/-- login from src/bot.py: if an active session exists, reply with its
start_ts and leave the table alone; otherwise INSERT a new row whose end_ts,
duration_minutes and description are NULL. -/
def login (user_id username : String) (now : Int) (s : Store) :
    LoginResult × Store :=
  match get_current_session user_id s with
  | some session => (.alreadyActive session.start_ts, s)
  | none => (.clockedIn, s ++ [newSessionRow user_id username now s])

/-- Outcome of the logout command as sent back to the user. -/
inductive LogoutResult where
  | notActive
  | loggedOut (duration_minutes : Int) (description : String)
deriving DecidableEq, Repr

/-- The UPDATE run by logout on every row whose id matches the fetched
session: SET end_ts = ?, duration_minutes = ?, description = ? WHERE id = ?.
Rows with a different id are untouched. -/
def closeRow (session : Session) (now_end duration : Int)
    (description : String) (r : Session) : Session :=
  if r.id = session.id then
    { r with end_ts := some now_end, duration_minutes := some duration,
             description := some description }
  else r

/-- logout from src/bot.py.  The source reads the clock twice after the
description wait: once inside get_session_duration (parameter now_dur) and
once for the stored end_ts (parameter now_end, read just after), then runs
UPDATE sessions SET end_ts, duration_minutes, description WHERE id = ?. -/
def logout (user_id description : String) (now_dur now_end : Int) (s : Store) :
    LogoutResult × Store :=
  match get_current_session user_id s with
  | none => (.notActive, s)
  | some session =>
      let duration_minutes := get_session_duration session now_dur
      (.loggedOut duration_minutes description,
       s.map (closeRow session now_end duration_minutes description))

/-- Outcome of the status command. -/
inductive StatusResult where
  | clockedOut
  | working (duration_minutes : Int) (start_ts : Int)
deriving DecidableEq, Repr

/-- status from src/bot.py: live duration via get_session_duration, no write. -/
def status (user_id : String) (now : Int) (s : Store) : StatusResult :=
  match get_current_session user_id s with
  | none => .clockedOut
  | some session => .working (get_session_duration session now) session.start_ts

/-- One store-touching command invocation, with its wall-clock reads. -/
inductive Cmd where
  | login (user_id username : String) (now : Int)
  | logout (user_id description : String) (now_dur now_end : Int)
  | status (user_id : String) (now : Int)

/-- Effect of one serially executed command on the sessions table (status
performs no write). -/
def stepStore : Cmd → Store → Store
  | .login u n t, s => (login u n t s).2
  | .logout u d t1 t2, s => (logout u d t1 t2 s).2
  | .status _ _, s => s

/-- Stores reachable from the empty table by serial command execution. -/
inductive Reachable : Store → Prop where
  | init : Reachable []
  | step (c : Cmd) {s : Store} : Reachable s → Reachable (stepStore c s)

/-- The rows of the table that are active (end_ts NULL) for a given user. -/
def activeRows (user_id : String) (s : Store) : List Session :=
  s.filter (isActiveFor user_id)

/-- The active-session invariant: at most one active row per user. -/
def ActiveInv (s : Store) : Prop :=
  ∀ u : String, (activeRows u s).length ≤ 1

/-- A row has its three close fields all absent or all present together. -/
def ClosedTogether (r : Session) : Prop :=
  (r.end_ts = none ∧ r.duration_minutes = none ∧ r.description = none) ∨
  (r.end_ts ≠ none ∧ r.duration_minutes ≠ none ∧ r.description ≠ none)

instance (r : Session) : Decidable (ClosedTogether r) := by
  unfold ClosedTogether; infer_instance

/-! Read-side aggregation.  All aggregation queries carry the clause
WHERE duration_minutes IS NOT NULL, and the grouped ones carry
GROUP BY user_id, username with ORDER BY total_minutes DESC. -/

/-- The completed sessions: rows with duration_minutes present. -/
def completedRows (s : Store) : List Session :=
  s.filter (fun r => r.duration_minutes.isSome)

/-- The GROUP BY user_id, username keys, one per distinct pair, in order of
first occurrence. -/
def groupKeys : List Session → List (String × String)
  | [] => []
  | r :: rs =>
      (r.user_id, r.username) ::
        (groupKeys rs).filter (fun k => k ≠ (r.user_id, r.username))

/-- SUM(duration_minutes) within one (user_id, username) group. -/
def groupTotal (key : String × String) (rows : List Session) : Int :=
  ((rows.filter (fun r => (r.user_id, r.username) = key)).map
    (fun r => r.duration_minutes.getD 0)).sum

/-- COUNT(id) within one (user_id, username) group. -/
def groupCount (key : String × String) (rows : List Session) : Nat :=
  (rows.filter (fun r => (r.user_id, r.username) = key)).length

/-- The grouped result set: one (key, SUM(duration_minutes)) row per distinct
(user_id, username) pair among the given rows. -/
def aggregate (rows : List Session) : List ((String × String) × Int) :=
  (groupKeys rows).map (fun k => (k, groupTotal k rows))

/-- The grouped result set with COUNT(id), as used by the server report. -/
def aggregateWithCount (rows : List Session) :
    List ((String × String) × Int × Nat) :=
  (groupKeys rows).map (fun k => (k, groupTotal k rows, groupCount k rows))

/-- ORDER BY total_minutes DESC on leaderboard rows. -/
def totalDesc (a b : (String × String) × Int) : Prop :=
  b.2 ≤ a.2

instance : DecidableRel totalDesc := fun a b => Int.decLe b.2 a.2

instance : IsTotal ((String × String) × Int) totalDesc :=
  ⟨fun a b => le_total b.2 a.2⟩

instance : IsTrans ((String × String) × Int) totalDesc :=
  ⟨fun _ _ _ h1 h2 => le_trans h2 h1⟩

/-- ORDER BY total_minutes DESC on server-report rows. -/
def totalCountDesc (a b : (String × String) × Int × Nat) : Prop :=
  b.2.1 ≤ a.2.1

instance : DecidableRel totalCountDesc := fun a b => Int.decLe b.2.1 a.2.1

instance : IsTotal ((String × String) × Int × Nat) totalCountDesc :=
  ⟨fun a b => le_total b.2.1 a.2.1⟩

instance : IsTrans ((String × String) × Int × Nat) totalCountDesc :=
  ⟨fun _ _ _ h1 h2 => le_trans h2 h1⟩

/-- The leaderboard query's grouped, ordered, limited result set, with the
GROUP BY key still visible: GROUP BY user_id, username ORDER BY total_minutes
DESC LIMIT 10 over completed sessions. -/
def leaderboardRows (s : Store) : List ((String × String) × Int) :=
  (List.insertionSort totalDesc (aggregate (completedRows s))).take 10

/-- The leaderboard command's output rows: the SELECT projects username and
SUM(duration_minutes) from the grouped result set. -/
def leaderboard (s : Store) : List (String × Int) :=
  (leaderboardRows s).map (fun e => (e.1.2, e.2))

/-- The server-wide report's grouped result set (LIMIT 5, with COUNT(id)),
GROUP BY key still visible. -/
def serverReportRows (s : Store) : List ((String × String) × Int × Nat) :=
  (List.insertionSort totalCountDesc (aggregateWithCount (completedRows s))).take 5

/-- SQL SUM over the duration_minutes column: NULL inputs are skipped and the
result is NULL when no non-NULL value is summed. -/
def sqlSumDuration : List Session → Option Int
  | [] => none
  | r :: rs =>
      match r.duration_minutes, sqlSumDuration rs with
      | none, acc => acc
      | some v, none => some v
      | some v, some acc => some (v + acc)

/-- Outcome of the per-user report branch. -/
inductive ReportResult where
  | noSessions
  | stats (total_minutes : Int) (session_count : Nat)
deriving DecidableEq, Repr

/-- The rows selected by the per-user report: user_id matches and
duration_minutes IS NOT NULL. -/
def userCompletedRows (user_id : String) (s : Store) : List Session :=
  s.filter (fun r => r.user_id == user_id && r.duration_minutes.isSome)

/-- The per-user branch of the report command: SELECT SUM(duration_minutes),
COUNT(id) WHERE user_id = ? AND duration_minutes IS NOT NULL; when the SUM
comes back NULL the command reports that no completed sessions were found,
otherwise it reports the total and the count. -/
def userReport (user_id : String) (s : Store) : ReportResult :=
  let rows := userCompletedRows user_id s
  match sqlSumDuration rows with
  | none => .noSessions
  | some total => .stats total rows.length

/-! Concrete stores used for counterexamples and witnesses. -/

/-- A store with one active session that started at epoch second 0. -/
def oneActiveStore : Store := [⟨1, "u", "alice", 0, none, none, none, 0⟩]

/-- A store violating the active-session invariant: two active rows for the
same user, the earlier-inserted one with the older start_ts. -/
def twoActiveStore : Store :=
  [⟨1, "u", "alice", 10, none, none, none, 10⟩,
   ⟨2, "u", "alice", 20, none, none, none, 20⟩]

/-- Three users with completed totals A:120, B:90, C:150 minutes. -/
def threeUserStore : Store :=
  [⟨1, "uA", "A", 0, some 7200, some 120, some "a", 0⟩,
   ⟨2, "uB", "B", 0, some 5400, some 90, some "b", 0⟩,
   ⟨3, "uC", "C", 0, some 9000, some 150, some "c", 0⟩]

/-- Two distinct users with the same completed total of 60 minutes. -/
def tieStore : Store :=
  [⟨1, "uA", "alice", 0, some 3600, some 60, some "a", 0⟩,
   ⟨2, "uB", "bob", 0, some 3600, some 60, some "b", 0⟩]

/-- One user_id whose display-name snapshot differs across two completed
sessions (60 minutes as alice, 30 minutes as alice2). -/
def renameStore : Store :=
  [⟨1, "u1", "alice", 0, some 3600, some 60, some "x", 0⟩,
   ⟨2, "u1", "alice2", 100, some 1900, some 30, some "y", 100⟩]

/-! Helper lemmas. -/

theorem isActiveFor_iff {u : String} {r : Session} :
    isActiveFor u r = true ↔ r.user_id = u ∧ r.end_ts = none := by
  simp [isActiveFor, Option.isNone_iff_eq_none]

/-- C4.  For every state in which a user has an active session, login replies
alreadyActive carrying the existing session's start_ts and leaves the session
table unchanged: no row is inserted or modified. -/
theorem C4_login_already_active (u n : String) (t : Int) (s : Store)
    (session : Session) (h : get_current_session u s = some session) :
    login u n t s = (.alreadyActive session.start_ts, s) := by
  simp only [login, h]

theorem C4_witness :
    get_current_session "u" oneActiveStore =
      some ⟨1, "u", "alice", 0, none, none, none, 0⟩ ∧
    login "u" "alice" 100 oneActiveStore = (.alreadyActive 0, oneActiveStore) :=
  ⟨by decide,
   C4_login_already_active "u" "alice" 100 oneActiveStore
     ⟨1, "u", "alice", 0, none, none, none, 0⟩ (by decide)⟩

/-- C5.  For every state in which a user has no active session, logout replies
notActive and performs no write: the table after the call is exactly the table
before it. -/
theorem C5_logout_not_active (u d : String) (t1 t2 : Int) (s : Store)
    (h : get_current_session u s = none) :
    logout u d t1 t2 s = (.notActive, s) := by
  simp only [logout, h]

theorem C5_witness :
    get_current_session "v" oneActiveStore = none ∧
    logout "v" "desc" 5 5 oneActiveStore = (.notActive, oneActiveStore) :=
  ⟨by decide, C5_logout_not_active "v" "desc" 5 5 oneActiveStore (by decide)⟩

/-- C1 counterexample.  Closing the session of oneActiveStore with the two
clock reads returning 0 (inside get_session_duration) and 120 (for end_ts)
stores duration_minutes = 0, while round((end_ts - start_ts)/60) computed from
the persisted end_ts is 2: the stored duration is not derived from the
persisted close timestamp. -/
theorem C1_counterexample :
    ∃ r ∈ (logout "u" "fix bug" 0 120 oneActiveStore).2,
      r.start_ts = 0 ∧ r.end_ts = some 120 ∧ r.duration_minutes = some 0 ∧
      roundDiv60 (120 - 0) = 2 := by
  decide

/-- C1 amended.  The duration stored at close equals
round((now_dur - start_ts)/60) where now_dur is a wall-clock read taken just
before the read that produces the stored end_ts; whenever the two reads return
the same value, the stored duration does equal round((end_ts - start_ts)/60)
computed from the persisted end_ts. -/
theorem C1_amended_duration (u d : String) (t1 t2 : Int) (s : Store)
    (session : Session) (h : get_current_session u s = some session) :
    ∃ r ∈ (logout u d t1 t2 s).2,
      r.start_ts = session.start_ts ∧ r.end_ts = some t2 ∧
      r.duration_minutes = some (roundDiv60 (t1 - session.start_ts)) ∧
      (t1 = t2 → ∀ e, r.end_ts = some e →
        r.duration_minutes = some (roundDiv60 (e - r.start_ts))) := by
  have hmem : session ∈ s := List.mem_of_find?_eq_some h
  refine ⟨{ session with
              end_ts := some t2,
              duration_minutes := some (get_session_duration session t1),
              description := some d }, ?_, rfl, rfl, rfl, ?_⟩
  · simp only [logout, h]
    have himg := List.mem_map_of_mem
      (closeRow session t2 (get_session_duration session t1) d) hmem
    simpa [closeRow] using himg
  · rintro rfl e he
    injection he with he
    subst he
    rfl

theorem C1_witness :
    ∃ r ∈ (logout "u" "fix bug" 120 120 oneActiveStore).2,
      r.start_ts = 0 ∧ r.end_ts = some 120 ∧
      r.duration_minutes = some (roundDiv60 (120 - 0)) ∧
      ((120 : Int) = 120 → ∀ e, r.end_ts = some e →
        r.duration_minutes = some (roundDiv60 (e - r.start_ts))) :=
  C1_amended_duration "u" "fix bug" 120 120 oneActiveStore
    ⟨1, "u", "alice", 0, none, none, none, 0⟩ (by decide)

/-- C3 counterexample.  In twoActiveStore the user has two active rows with
start_ts 10 and 20; the active-session lookup returns the row with start_ts
10 — the earlier-inserted, less recent one — and returns it as a normal row
rather than failing. -/
theorem C3_counterexample :
    (twoActiveStore.filter (isActiveFor "u")).map Session.start_ts = [10, 20] ∧
    (get_current_session "u" twoActiveStore).map Session.start_ts = some 10 := by
  decide

/-- C3 amended.  When several rows with absent end_ts exist for one user, the
lookup is still deterministic, but the tie-break selects the first matching
row in table (insertion) order — the earliest-inserted active row — and the
lookup never fails. -/
theorem C3_amended_lookup (u : String) (s : Store) (r : Session)
    (h : get_current_session u s = some r) :
    r.user_id = u ∧ r.end_ts = none ∧
    ∃ pre post, s = pre ++ r :: post ∧
      ∀ x ∈ pre, ¬(x.user_id = u ∧ x.end_ts = none) := by
  rw [get_current_session, List.find?_eq_some] at h
  obtain ⟨hr, pre, post, hs, hpre⟩ := h
  obtain ⟨hr1, hr2⟩ := isActiveFor_iff.mp hr
  refine ⟨hr1, hr2, pre, post, hs, ?_⟩
  intro x hx hcontra
  have := hpre x hx
  rw [isActiveFor_iff.mpr hcontra] at this
  simp at this

theorem active_filter_nil {u : String} {s : Store}
    (h : get_current_session u s = none) :
    s.filter (isActiveFor u) = [] := by
  rw [get_current_session, List.find?_eq_none] at h
  rw [List.filter_eq_nil_iff]
  exact h

theorem length_filter_map_le (upd : Session → Session) (u : String)
    (hupd : ∀ r : Session, isActiveFor u (upd r) = true → upd r = r)
    (l : List Session) :
    ((l.map upd).filter (isActiveFor u)).length ≤
      (l.filter (isActiveFor u)).length := by
  induction l with
  | nil => simp
  | cons r rs ih =>
    simp only [List.map_cons, List.filter_cons]
    by_cases hr : isActiveFor u (upd r) = true
    · have heq := hupd r hr
      rw [if_pos hr, heq, if_pos (heq ▸ hr)]
      simpa using ih
    · rw [if_neg hr]
      by_cases hr2 : isActiveFor u r = true
      · rw [if_pos hr2]
        exact le_trans ih (by simp)
      · rw [if_neg hr2]
        exact ih

/-- C2.  The active-session invariant — at most one row with absent end_ts
per user — is preserved by every serially executed command: login only
inserts when the user has no active row, logout only turns active rows into
closed ones, and status writes nothing. -/
theorem C2_active_invariant (c : Cmd) (s : Store) (h : ActiveInv s) :
    ActiveInv (stepStore c s) := by
  cases c with
  | status u t => exact h
  | login u n t =>
    cases hgc : get_current_session u s with
    | some session => simpa only [stepStore, login, hgc] using h
    | none =>
      intro u'
      simp only [stepStore, login, hgc, activeRows, List.filter_append]
      by_cases hu : u = u'
      · subst hu
        rw [active_filter_nil hgc]
        simp [isActiveFor, newSessionRow]
      · have hrow : isActiveFor u' (newSessionRow u n t s) = false := by
          simp only [isActiveFor, newSessionRow, Option.isNone_none,
            Bool.and_true]
          exact beq_eq_false_iff_ne.mpr hu
        simp only [List.filter_cons, hrow, Bool.false_eq_true, if_false,
          List.filter_nil, List.append_nil]
        exact h u'
  | logout u d t1 t2 =>
    cases hgc : get_current_session u s with
    | none => simpa only [stepStore, logout, hgc] using h
    | some session =>
      intro u'
      simp only [stepStore, logout, hgc, activeRows]
      refine le_trans (length_filter_map_le _ u' ?_ s) (h u')
      intro r hr
      by_cases hid : r.id = session.id
      · exfalso
        rw [isActiveFor_iff] at hr
        simp [closeRow, hid] at hr
      · simp [closeRow, hid]

theorem C2_witness : ActiveInv (stepStore (.login "u" "alice" 5) []) :=
  C2_active_invariant (.login "u" "alice" 5) []
    (by intro u; simp [activeRows])

theorem closedTogether_step (c : Cmd) (s : Store)
    (h : ∀ r ∈ s, ClosedTogether r) :
    ∀ r ∈ stepStore c s, ClosedTogether r := by
  cases c with
  | status u t => exact h
  | login u n t =>
    cases hgc : get_current_session u s with
    | some session => simpa only [stepStore, login, hgc] using h
    | none =>
      intro r hr
      simp only [stepStore, login, hgc, List.mem_append,
        List.mem_singleton] at hr
      rcases hr with hr | rfl
      · exact h r hr
      · exact Or.inl ⟨rfl, rfl, rfl⟩
  | logout u d t1 t2 =>
    cases hgc : get_current_session u s with
    | none => simpa only [stepStore, logout, hgc] using h
    | some session =>
      intro r hr
      simp only [stepStore, logout, hgc, List.mem_map] at hr
      obtain ⟨r0, hr0, rfl⟩ := hr
      by_cases hid : r0.id = session.id
      · rw [ClosedTogether]
        right
        refine ⟨?_, ?_, ?_⟩ <;> simp [closeRow, hid]
      · have : closeRow session t2 (get_session_duration session t1) d r0 = r0 := by
          simp [closeRow, hid]
        rw [this]
        exact h r0 hr0

/-- C6.  In every store reachable by serial command execution, each row has
end_ts, duration_minutes and description all absent or all present together:
login inserts rows with all three NULL and logout fills all three in one
UPDATE. -/
theorem C6_close_fields_together (s : Store) (h : Reachable s) :
    ∀ r ∈ s, ClosedTogether r := by
  induction h with
  | init => intro r hr; cases hr
  | step c hs ih => exact closedTogether_step c _ ih

theorem C6_witness : ClosedTogether ⟨1, "u", "alice", 5, none, none, none, 5⟩ :=
  C6_close_fields_together _
    (Reachable.step (Cmd.login "u" "alice" 5) Reachable.init)
    ⟨1, "u", "alice", 5, none, none, none, 5⟩ (by decide)

theorem C3_witness :
    (⟨1, "u", "alice", 10, none, none, none, 10⟩ : Session).user_id = "u" ∧
    (⟨1, "u", "alice", 10, none, none, none, 10⟩ : Session).end_ts = none ∧
    ∃ pre post, twoActiveStore =
        pre ++ (⟨1, "u", "alice", 10, none, none, none, 10⟩ : Session) :: post ∧
      ∀ x ∈ pre, ¬(x.user_id = "u" ∧ x.end_ts = none) :=
  C3_amended_lookup "u" twoActiveStore
    ⟨1, "u", "alice", 10, none, none, none, 10⟩ (by decide)

/-- C7.  Starting with no active session for a user, login succeeds, logout
then succeeds with the duration computed from the two clock reads, and a
second login succeeds again: closing a session returns the user to the idle
state, from which a new session can always be started. -/
theorem C7_round_trip (u n d : String) (t1 t2 t3 t4 : Int) (s : Store)
    (h : get_current_session u s = none) :
    (login u n t1 s).1 = .clockedIn ∧
    (logout u d t2 t3 (login u n t1 s).2).1 =
      .loggedOut (roundDiv60 (t2 - t1)) d ∧
    (login u n t4 (logout u d t2 t3 (login u n t1 s).2).2).1 = .clockedIn := by
  have hs1 : (login u n t1 s).2 = s ++ [newSessionRow u n t1 s] := by
    simp only [login, h]
  have h1 : (login u n t1 s).1 = .clockedIn := by
    simp only [login, h]
  have hactive : isActiveFor u (newSessionRow u n t1 s) = true := by
    simp [isActiveFor, newSessionRow]
  have hfind : get_current_session u (s ++ [newSessionRow u n t1 s]) =
      some (newSessionRow u n t1 s) := by
    rw [get_current_session] at h ⊢
    rw [List.find?_append, h]
    simp [hactive]
  have hdur : get_session_duration (newSessionRow u n t1 s) t2 =
      roundDiv60 (t2 - t1) := rfl
  have hlg : logout u d t2 t3 (login u n t1 s).2 =
      (.loggedOut (roundDiv60 (t2 - t1)) d,
       (s ++ [newSessionRow u n t1 s]).map
         (closeRow (newSessionRow u n t1 s) t3 (roundDiv60 (t2 - t1)) d)) := by
    rw [hs1]
    simp only [logout, hfind, hdur]
  have hnone : get_current_session u
      ((s ++ [newSessionRow u n t1 s]).map
        (closeRow (newSessionRow u n t1 s) t3 (roundDiv60 (t2 - t1)) d)) =
      none := by
    rw [get_current_session, List.find?_eq_none]
    intro x hx
    rw [List.mem_map] at hx
    obtain ⟨r0, hr0, rfl⟩ := hx
    by_cases hid : r0.id = (newSessionRow u n t1 s).id
    · simp [closeRow, hid, isActiveFor]
    · rw [List.mem_append] at hr0
      rcases hr0 with hr0 | hr0
      · rw [get_current_session] at h
        have hna := List.find?_eq_none.mp h r0 hr0
        simpa [closeRow, hid] using hna
      · rw [List.mem_singleton] at hr0
        exact absurd (by rw [hr0]) hid
  refine ⟨h1, ?_, ?_⟩
  · rw [hlg]
  · rw [hlg]
    simp only [login, hnone]

theorem C7_witness :
    (login "u" "alice" 0 ([] : Store)).1 = .clockedIn ∧
    (logout "u" "shipped" 1800 1800 (login "u" "alice" 0 ([] : Store)).2).1 =
      .loggedOut (roundDiv60 (1800 - 0)) "shipped" ∧
    (login "u" "alice" 4000
      (logout "u" "shipped" 1800 1800
        (login "u" "alice" 0 ([] : Store)).2).2).1 = .clockedIn :=
  C7_round_trip "u" "alice" "shipped" 0 1800 1800 4000 [] (by decide)

theorem mem_aggregate_total {rows : List Session}
    {e : (String × String) × Int} (h : e ∈ aggregate rows) :
    e.2 = groupTotal e.1 rows := by
  obtain ⟨k, _, rfl⟩ := List.mem_map.mp h
  rfl

theorem mem_leaderboardRows_aggregate {s : Store}
    {e : (String × String) × Int} (h : e ∈ leaderboardRows s) :
    e ∈ aggregate (completedRows s) :=
  (List.mem_insertionSort totalDesc).mp (List.mem_of_mem_take h)

theorem leaderboardRows_sorted (s : Store) :
    List.Sorted totalDesc (leaderboardRows s) :=
  List.Pairwise.sublist (List.take_sublist 10 _)
    (List.sorted_insertionSort totalDesc (aggregate (completedRows s)))

theorem leaderboard_sorted (s : Store) :
    List.Sorted (fun a b : String × Int => b.2 ≤ a.2) (leaderboard s) :=
  List.Pairwise.map _ (fun _ _ hab => hab) (leaderboardRows_sorted s)

theorem leaderboard_length_le (s : Store) : (leaderboard s).length ≤ 10 := by
  rw [leaderboard, List.length_map, leaderboardRows, List.length_take]
  exact min_le_left _ _

/-- C8 counterexample.  Two users with the same completed total of 60 minutes
both appear on the leaderboard, so the output is not ordered strictly
descending by total minutes: equal totals stand next to each other. -/
theorem C8_counterexample :
    leaderboard tieStore = [("alice", 60), ("bob", 60)] ∧
    ¬ List.Sorted (fun a b : String × Int => b.2 < a.2)
        (leaderboard tieStore) := by
  decide

/-- C8 (amended).  The leaderboard returns at most 10 entries, each total is
the sum of duration_minutes over the completed sessions of its
(user_id, username) group, and the entries are ordered descending
(non-increasing) by total minutes — strictly descending whenever totals are
distinct, as in the example totals A:120, B:90, C:150 yielding [C, A, B];
equal totals appear adjacent in an unspecified relative order. -/
theorem C8_amended_leaderboard :
    (∀ s : Store, (leaderboard s).length ≤ 10) ∧
    (∀ s : Store,
      List.Sorted (fun a b : String × Int => b.2 ≤ a.2) (leaderboard s)) ∧
    (∀ (s : Store) (e : (String × String) × Int), e ∈ leaderboardRows s →
      e.2 = groupTotal e.1 (completedRows s)) ∧
    leaderboard threeUserStore = [("C", 150), ("A", 120), ("B", 90)] := by
  refine ⟨leaderboard_length_le, leaderboard_sorted, ?_, rfl⟩
  intro s e he
  exact mem_aggregate_total (mem_leaderboardRows_aggregate he)

theorem C8_witness :
    ((("uC", "C"), (150 : Int)) : (String × String) × Int).2 =
      groupTotal ("uC", "C") (completedRows threeUserStore) :=
  C8_amended_leaderboard.2.2.1 threeUserStore (("uC", "C"), 150) (by decide)

theorem sqlSumDuration_some {l : List Session}
    (h : ∀ r ∈ l, r.duration_minutes.isSome = true) (hne : l ≠ []) :
    sqlSumDuration l =
      some ((l.map (fun r => r.duration_minutes.getD 0)).sum) := by
  induction l with
  | nil => exact absurd rfl hne
  | cons r rs ih =>
    have hr := h r (List.mem_cons_self r rs)
    obtain ⟨v, hv⟩ := Option.isSome_iff_exists.mp hr
    cases rs with
    | nil => simp [sqlSumDuration, hv]
    | cons r2 rs2 =>
      have ih2 := ih (fun x hx => h x (List.mem_cons_of_mem r hx))
        (List.cons_ne_nil r2 rs2)
      rw [sqlSumDuration, hv, ih2]
      simp [hv]

/-- C9.  The per-user report returns the sum of duration_minutes and the
count of completed sessions for that user, and it reports the distinct
no-completed-sessions outcome exactly when the user has zero completed
sessions, rather than a zero total. -/
theorem C9_user_report (u : String) (s : Store) :
    (userReport u s = .noSessions ↔ userCompletedRows u s = []) ∧
    (userCompletedRows u s ≠ [] →
      userReport u s = .stats
        (((userCompletedRows u s).map (fun r => r.duration_minutes.getD 0)).sum)
        ((userCompletedRows u s).length)) := by
  have hall : ∀ r ∈ userCompletedRows u s, r.duration_minutes.isSome = true := by
    intro r hr
    rw [userCompletedRows, List.mem_filter] at hr
    have h2 := hr.2
    simp only [Bool.and_eq_true] at h2
    exact h2.2
  have hstats : userCompletedRows u s ≠ [] →
      userReport u s = .stats
        (((userCompletedRows u s).map (fun r => r.duration_minutes.getD 0)).sum)
        ((userCompletedRows u s).length) := by
    intro hne
    rw [userReport]
    simp only [sqlSumDuration_some hall hne]
  refine ⟨⟨?_, ?_⟩, hstats⟩
  · intro hrep
    by_contra hne
    rw [hstats hne] at hrep
    exact ReportResult.noConfusion hrep
  · intro hnil
    rw [userReport]
    simp only [hnil, sqlSumDuration]

theorem C9_witness :
    userReport "uA" threeUserStore = .stats
      (((userCompletedRows "uA" threeUserStore).map
        (fun r => r.duration_minutes.getD 0)).sum)
      ((userCompletedRows "uA" threeUserStore).length) :=
  (C9_user_report "uA" threeUserStore).2 (by decide)

/-- C10.  Leaderboard and server report group completed sessions by the pair
(user_id, username): every output total (and count) is taken only over rows
matching both components of its key, and a user_id whose display-name
snapshot differs across sessions — as in renameStore — yields two separate
entries whose minutes are never combined. -/
theorem C10_grouped_by_pair :
    (∀ (s : Store) (e : (String × String) × Int), e ∈ leaderboardRows s →
      e.2 = groupTotal e.1 (completedRows s)) ∧
    (∀ (s : Store) (e : (String × String) × Int × Nat),
      e ∈ serverReportRows s →
        e.2.1 = groupTotal e.1 (completedRows s) ∧
        e.2.2 = groupCount e.1 (completedRows s)) ∧
    leaderboardRows renameStore =
      [(("u1", "alice"), 60), (("u1", "alice2"), 30)] ∧
    serverReportRows renameStore =
      [(("u1", "alice"), 60, 1), (("u1", "alice2"), 30, 1)] := by
  refine ⟨?_, ?_, rfl, rfl⟩
  · intro s e he
    exact mem_aggregate_total (mem_leaderboardRows_aggregate he)
  · intro s e he
    have h2 := (List.mem_insertionSort totalCountDesc).mp
      (List.mem_of_mem_take he)
    obtain ⟨k, _, rfl⟩ := List.mem_map.mp h2
    exact ⟨rfl, rfl⟩

theorem C10_witness :
    ((("u1", "alice2"), (30 : Int)) : (String × String) × Int).2 =
      groupTotal ("u1", "alice2") (completedRows renameStore) :=
  C10_grouped_by_pair.1 renameStore (("u1", "alice2"), 30) (by decide)

end CoWorkBot
